import Mathlib

/-!
Shallow embedding of the MushIoT device simulator (`Tester/sim_device.py`),
covering the per-tick loop of `main`: settings fetch and derivation,
pending-command-patch consumption and merge, the pump control policy,
the environment (moisture) model, acknowledgement emission and the
reading report.  Network delivery of acks/readings is modelled as the
emission of events; transport failures of the settings fetch are an
explicit input (`FetchOutcome`).  Python `random.randint` draws and the
wall-clock sine term are inputs (`TickInput.drift`, `TickInput.sine`).
-/

namespace MushIoT

/-- JSON-like values carried by a command patch.  Numbers are restricted
to integers (the patches exercised by the loop coerce through `int`,
`bool`, `str` and `float`). -/
inductive JVal
  | null
  | jbool (b : Bool)
  | jnum (n : Int)
  | jstr (s : String)
deriving DecidableEq, Repr

/-- Python truthiness (`bool(v)`) for a JSON value. -/
def pyBool : JVal → Bool
  | .null => false
  | .jbool b => b
  | .jnum n => !(n == 0)
  | .jstr s => !(s == "")

/-- Python `str(v)` for a JSON value. -/
def pyStr : JVal → String
  | .null => "None"
  | .jbool b => if b then "True" else "False"
  | .jnum n => toString n
  | .jstr s => s

/-- ASCII lowercasing of one character (Python `str.lower` on the
identifiers the loop sees). -/
def lowerChar (c : Char) : Char :=
  if 65 ≤ c.toNat ∧ c.toNat ≤ 90 then Char.ofNat (c.toNat + 32) else c

/-- ASCII lowercasing of a string (`.lower()`). -/
def lowerStr (s : String) : String := String.mk (s.data.map lowerChar)

/-- Digits-only check for the numeric parsers backing `int(str)` and
`float(str)`. -/
def allDigits (cs : List Char) : Bool := cs.all Char.isDigit

/-- Value of a digit string. -/
def digitsVal (cs : List Char) : Nat :=
  cs.foldl (fun a c => a * 10 + (c.toNat - 48)) 0

/-- Parse an integer literal with optional sign (Python `int(str)`). -/
def parseInt? (s : String) : Option Int :=
  match s.data with
  | '-' :: rest =>
      if rest ≠ [] ∧ allDigits rest then some (-(digitsVal rest : Int)) else none
  | '+' :: rest =>
      if rest ≠ [] ∧ allDigits rest then some ((digitsVal rest : Int)) else none
  | cs => if cs ≠ [] ∧ allDigits cs then some ((digitsVal cs : Int)) else none

/-- Python `int(v)`: fails (raises) on `None` and on non-integer strings. -/
def pyInt : JVal → Option Int
  | .null => none
  | .jbool b => some (if b then 1 else 0)
  | .jnum n => some n
  | .jstr s => parseInt? s

/-- Split a character list at the first dot, keeping the remainder. -/
def splitFrac : List Char → List Char × Option (List Char)
  | [] => ([], none)
  | c :: rest =>
      if c = '.' then ([], some rest)
      else
        let r := splitFrac rest
        (c :: r.1, r.2)

/-- Unsigned decimal literal, with optional fractional part. -/
def parseDecCore (cs : List Char) : Option Rat :=
  let sp := splitFrac cs
  match sp.2 with
  | none =>
      if sp.1 ≠ [] ∧ allDigits sp.1 then some ((digitsVal sp.1 : Nat) : Rat)
      else none
  | some fr =>
      if (sp.1 ≠ [] ∨ fr ≠ []) ∧ allDigits sp.1 ∧ allDigits fr then
        some ((digitsVal sp.1 : Nat) +
          (digitsVal fr : Nat) / ((10 : Rat) ^ fr.length))
      else none

/-- Parse a decimal literal (optional sign, digits, optional fractional
part), modelling Python `float(str)` on the literals the loop can see. -/
def parseDec? (s : String) : Option Rat :=
  match s.data with
  | '-' :: rest => (parseDecCore rest).map Neg.neg
  | '+' :: rest => parseDecCore rest
  | cs => parseDecCore cs

/-- Python `float(v)`: fails on `None` and on non-numeric strings. -/
def pyFloat : JVal → Option Rat
  | .null => none
  | .jbool b => some (if b then 1 else 0)
  | .jnum n => some (n : Rat)
  | .jstr s => parseDec? s

/-- The `clamp` helper of `sim_device.py`: `max(lo, min(hi, x))`. -/
def clamp (x lo hi : Int) : Int := max lo (min hi x)

/-- One environment-model step (line 284-285): moisture plus the seeded
random-walk draw plus the wall-clock sine term, clamped to [0,100]. -/
def envStep (m drift sine : Int) : Int := clamp (m + drift + sine) 0 100

/-- Moisture trace of the environment model over a list of
(drift draw, sine term) pairs. -/
def envTrace (m : Int) : List (Int × Int) → List Int
  | [] => []
  | (d, s) :: rest => envStep m d s :: envTrace (envStep m d s) rest

/-- Derived raw sensor value (line 286):
`1400 + int((100 - moisture) * (3200 - 1400) / 100)`; exact division
for moisture in [0,100]. -/
def rawOf (m : Int) : Int := 1400 + (100 - m) * (3200 - 1400) / 100

/-- The pump control policy (lines 288-295, duplicated at 264-271):
manual mode copies the override, any other mode runs the two-threshold
hysteresis. -/
def decidePump (mode : String) (overrideOn : Bool) (onBelow offAbove : Int)
    (moisture : Int) (pumpOn : Bool) : Bool :=
  if mode = "manual" then overrideOn
  else if pumpOn = false ∧ moisture < onBelow then true
  else if pumpOn = true ∧ moisture > offAbove then false
  else pumpOn

/-- A successful settings-fetch body; each field may be absent. -/
structure ServerSettings where
  pumpMode : Option String
  overridePumpOn : Option Bool
  pumpOnBelow : Option Int
  pumpOffAbove : Option Int
  sendIntervalSec : Option Rat
deriving DecidableEq, Repr

/-- The empty JSON body `{}` returned by `get_settings` on an HTTP error. -/
def ServerSettings.empty : ServerSettings := ⟨none, none, none, none, none⟩

/-- The working settings the tick derives at lines 239-243. -/
structure DerivedSettings where
  mode : String
  overrideOn : Bool
  onBelow : Int
  offAbove : Int
  sendInterval : Rat
deriving DecidableEq, Repr

/-- Lines 239-243: `(s.get("pumpMode") or "auto").lower()`,
`bool(s.get("overridePumpOn", False))`, `int(s.get("pumpOnBelow", 35))`,
`int(s.get("pumpOffAbove", 45))`,
`float(s.get("sendIntervalSec") or args.interval)`. -/
def deriveSettings (interval : Rat) (s : ServerSettings) : DerivedSettings :=
  let mode := match s.pumpMode with
    | some v => if v = "" then "auto" else lowerStr v
    | none => "auto"
  let ov := s.overridePumpOn.getD false
  let ob := s.pumpOnBelow.getD 35
  let oa := s.pumpOffAbove.getD 45
  let si := match s.sendIntervalSec with
    | some v => if v = 0 then interval else v
    | none => interval
  ⟨mode, ov, ob, oa, si⟩

/-- A command patch: a JSON dict whose recognised keys are the five
settings fields; `extra` records whether the dict holds any other keys
(which only affects its truthiness as a dict). -/
structure Patch where
  pumpMode : Option JVal
  overridePumpOn : Option JVal
  pumpOnBelow : Option JVal
  pumpOffAbove : Option JVal
  sendIntervalSec : Option JVal
  extra : Bool
deriving DecidableEq, Repr

/-- Truthiness of the patch dict (`if pending["patch"]:`): non-empty. -/
def Patch.truthy (p : Patch) : Bool :=
  p.pumpMode.isSome || p.overridePumpOn.isSome || p.pumpOnBelow.isSome ||
    p.pumpOffAbove.isSome || p.sendIntervalSec.isSome || p.extra

/-- Lines 249-250: `mode = str(p.get("pumpMode") or mode).lower()`. -/
def patchMode (d : DerivedSettings) (p : Patch) : String :=
  match p.pumpMode with
  | none => d.mode
  | some v => lowerStr (pyStr (if pyBool v then v else .jstr d.mode))

/-- Lines 251-252: `override_on = bool(p.get("overridePumpOn"))`. -/
def patchOverride (d : DerivedSettings) (p : Patch) : Bool :=
  match p.overridePumpOn with
  | none => d.overrideOn
  | some v => pyBool v

/-- Lines 253-254: `on_below = int(p.get("pumpOnBelow") or on_below)`;
`int` raises (returns `none`) on an uncoercible truthy value. -/
def patchOnBelow (d : DerivedSettings) (p : Patch) : Option Int :=
  match p.pumpOnBelow with
  | none => some d.onBelow
  | some v => if pyBool v then pyInt v else some d.onBelow

/-- Lines 255-256: `off_above = int(p.get("pumpOffAbove") or off_above)`. -/
def patchOffAbove (d : DerivedSettings) (p : Patch) : Option Int :=
  match p.pumpOffAbove with
  | none => some d.offAbove
  | some v => if pyBool v then pyInt v else some d.offAbove

/-- Lines 257-261: `send_interval = float(... or send_interval)` wrapped
in try/except — a failed coercion keeps the previous value. -/
def patchInterval (d : DerivedSettings) (p : Patch) : Rat :=
  match p.sendIntervalSec with
  | none => d.sendInterval
  | some v => if pyBool v then (pyFloat v).getD d.sendInterval else d.sendInterval

/-- Merge of a consumed patch into the working settings (lines 249-261).
The source assigns the five locals in sequence with no cross-field
dependence, so the per-field functions compose; `none` models the
uncaught `int()` exception on `pumpOnBelow`/`pumpOffAbove`, which aborts
the tick. -/
def applyPatch (d : DerivedSettings) (p : Patch) : Option DerivedSettings :=
  match patchOnBelow d p, patchOffAbove d p with
  | some ob, some oa =>
      some ⟨patchMode d p, patchOverride d p, ob, oa, patchInterval d p⟩
  | _, _ => none

/-- Outcome of the per-tick `get_settings` call: an HTTP-ok JSON body,
an HTTP error (the function returns `{}`), or a raised transport
exception (the whole tick body is skipped by the outer try/except). -/
inductive FetchOutcome
  | ok (s : ServerSettings)
  | httpError
  | exn
deriving DecidableEq, Repr

/-- The body the tick works with when the fetch call returns. -/
def FetchOutcome.body : FetchOutcome → ServerSettings
  | .ok s => s
  | _ => ServerSettings.empty

/-- The per-tick nondeterministic inputs: the fetch outcome, the seeded
`random.randint(-2, 2)` draw and the wall-clock `int(5*sin(t/60))` term. -/
structure TickInput where
  fetch : FetchOutcome
  drift : Int
  sine : Int
deriving DecidableEq, Repr

/-- Observable outputs of a tick: `post_ack` and `post_reading` calls. -/
inductive Event
  | ack (pumpOn : Bool) (mode : String) (note : String)
  | reading (moisture : Int) (pumpOn : Bool) (raw : Int)
deriving DecidableEq, Repr

/-- The loop state that persists across ticks: moisture, pump state,
`last_ack_state`, `settings_applied_acked`, the pending patch mailbox
and the last assigned `send_interval`. -/
structure SimState where
  moisture : Int
  pumpOn : Bool
  lastAck : Option (Bool × String)
  settingsAcked : Bool
  pending : Option Patch
  sendInterval : Rat
deriving DecidableEq, Repr

/-- Initial loop state (lines 215-218): seeded initial moisture, pump
off, no ack yet, settings not acknowledged, empty mailbox. -/
def mkInit (interval : Rat) (m0 : Int) : SimState :=
  ⟨m0, false, none, false, none, interval⟩

/-- Lines 278-303: the part of the tick after the patch branch — the
one-time "settings applied" ack, the environment step, the control
policy, the change-triggered ack and the reading report.  `rawFn` is the
raw-sensor mapping (instantiated with `rawOf`); `evs` are events already
emitted by the patch branch. -/
def afterPatch (rawFn : Int → Int) (st : SimState) (i : TickInput)
    (d : DerivedSettings) (evs : List Event) : SimState × List Event :=
  let saEvs : List Event :=
    if st.settingsAcked then []
    else [Event.ack st.pumpOn d.mode "settings applied"]
  let m2 := envStep st.moisture i.drift i.sine
  let p2 := decidePump d.mode d.overrideOn d.onBelow d.offAbove m2 st.pumpOn
  let changed : Bool := !(st.lastAck == some (p2, d.mode))
  let chEvs : List Event := if changed then [Event.ack p2 d.mode "sim"] else []
  let la := if changed then some (p2, d.mode) else st.lastAck
  (⟨m2, p2, la, true, st.pending, d.sendInterval⟩,
   evs ++ saEvs ++ chEvs ++ [Event.reading m2 p2 (rawFn m2)])

/-- The tick body once the fetch call has returned a body `s`
(lines 239-303): derive settings, consume a truthy pending patch (an
`int()` coercion failure aborts the tick with the patch already
cleared), then run the rest of the tick. -/
def tickBody (rawFn : Int → Int) (interval : Rat) (st : SimState)
    (i : TickInput) (s : ServerSettings) : SimState × List Event :=
  let d := deriveSettings interval s
  match st.pending with
  | some p =>
      if p.truthy then
        match applyPatch d p with
        | none =>
            (⟨st.moisture, st.pumpOn, st.lastAck, st.settingsAcked, none,
              d.sendInterval⟩, [])
        | some d2 =>
            let desired := decidePump d2.mode d2.overrideOn d2.onBelow
              d2.offAbove st.moisture st.pumpOn
            let st2 : SimState := ⟨st.moisture, desired,
              some (desired, d2.mode), st.settingsAcked, none, st.sendInterval⟩
            afterPatch rawFn st2 i d2 [Event.ack desired d2.mode "cmd"]
      else afterPatch rawFn st i d []
  | none => afterPatch rawFn st i d []

/-- One tick of the loop, parameterised by the raw-sensor mapping: a
raised fetch leaves the state untouched and emits nothing. -/
def tickGen (rawFn : Int → Int) (interval : Rat) (st : SimState)
    (i : TickInput) : SimState × List Event :=
  match i.fetch with
  | .exn => (st, [])
  | .httpError => tickBody rawFn interval st i ServerSettings.empty
  | .ok s => tickBody rawFn interval st i s

/-- One tick of the loop as written in the source. -/
def tick (interval : Rat) (st : SimState) (i : TickInput) :
    SimState × List Event :=
  tickGen rawOf interval st i

/-- A run of the tick loop over a list of per-tick inputs, collecting
each tick's emitted events. -/
def run (interval : Rat) (st : SimState) :
    List TickInput → SimState × List (List Event)
  | [] => (st, [])
  | i :: is =>
      let r := tick interval st i
      let rest := run interval r.1 is
      (rest.1, r.2 :: rest.2)

/-- Whether the tick body over fetch body `s` reaches its post-patch
part: any consumed patch merged without an `int()` failure. -/
def reachesBody (interval : Rat) (st : SimState) (s : ServerSettings) : Bool :=
  match st.pending with
  | none => true
  | some p =>
      !p.truthy || (applyPatch (deriveSettings interval s) p).isSome

/-- Whether a tick reaches the post-patch part of its body: the fetch
call returned and any consumed patch merged without an `int()` failure. -/
def reaches (interval : Rat) (st : SimState) (i : TickInput) : Bool :=
  match i.fetch with
  | .exn => false
  | f => reachesBody interval st f.body

/-- Event classifiers. -/
def Event.isAck : Event → Bool
  | .ack _ _ _ => true
  | .reading _ _ _ => false

def Event.isReading : Event → Bool
  | .reading _ _ _ => true
  | .ack _ _ _ => false

/-- The one-time "settings applied" acknowledgement. -/
def Event.isSA : Event → Bool
  | .ack _ _ n => n == "settings applied"
  | .reading _ _ _ => false

/-- C1: in auto mode, for moisture in [0,100] and onBelow < offAbove,
the policy turns the pump on exactly when it was off and moisture is
below onBelow, turns it off exactly when it was on and moisture is above
offAbove, otherwise holds the prior state; it never turns on at or above
onBelow from off, and never stays on above offAbove. -/
theorem c1_auto_hysteresis (ov : Bool) (ob oa m : Int) (p : Bool)
    (h0 : 0 ≤ m) (h1 : m ≤ 100) (h2 : ob < oa) :
    ((decidePump "auto" ov ob oa m p = true ∧ p = false) ↔ (p = false ∧ m < ob)) ∧
    ((decidePump "auto" ov ob oa m p = false ∧ p = true) ↔ (p = true ∧ m > oa)) ∧
    (¬(p = false ∧ m < ob) → ¬(p = true ∧ m > oa) →
      decidePump "auto" ov ob oa m p = p) ∧
    (p = false → ob ≤ m → decidePump "auto" ov ob oa m p = false) ∧
    (m > oa → decidePump "auto" ov ob oa m p = false) := by
  have hm : ("auto" : String) ≠ "manual" := by decide
  cases p <;> simp [decidePump, hm] <;> omega

/-- Witness for C1 at moisture 50 inside the dead band (35, 45], pump
previously off: the policy holds the pump off. -/
theorem c1_auto_hysteresis_witness :
    (0 : Int) ≤ 50 ∧ (50 : Int) ≤ 100 ∧ (35 : Int) < 45 ∧
    decidePump "auto" true 35 45 50 false = false := by
  refine ⟨by decide, by decide, by decide, ?_⟩
  exact (c1_auto_hysteresis true 35 45 50 false (by decide) (by decide)
    (by decide)).2.2.1 (by decide) (by decide)

/-- C7: in manual mode the policy output equals overridePumpOn for every
moisture, threshold pair and prior pump state, and feeding the output
back as the prior state yields the same output. -/
theorem c7_manual_mode (ov : Bool) (ob oa m : Int) (p : Bool) :
    decidePump "manual" ov ob oa m p = ov ∧
    decidePump "manual" ov ob oa m (decidePump "manual" ov ob oa m p) =
      decidePump "manual" ov ob oa m p := by
  simp [decidePump]

/-- C8: one environment-model step always lands in [0,100], for every
input moisture, random-walk draw and wall-clock sine term. -/
theorem c8_env_range (m d s : Int) :
    0 ≤ envStep m d s ∧ envStep m d s ≤ 100 := by
  unfold envStep clamp
  omega

/-- C4: the environment step mixes the wall-clock sine term
`int(5*sin(time.time()/60))` into every moisture update, so two runs
with the same seed (hence identical drift draws, here +1) started at
different wall-clock times (sine terms 0 and 2) produce different
moisture sequences, contradicting seeded reproducibility. -/
theorem c4_wallclock_breaks_reproducibility :
    envTrace 40 [(1, 0)] = [41] ∧ envTrace 40 [(1, 2)] = [43] ∧
    envTrace 40 [(1, 0)] ≠ envTrace 40 [(1, 2)] := by decide

/-- C2 counterexample: a run whose only tick's settings fetch fails with
an HTTP error (so no successful settings fetch ever happens) still emits
one "settings applied" acknowledgement, refuting "exactly one settings
applied acknowledgement is emitted, on the very first successful
settings fetch". -/
theorem c2_counterexample :
    ((run 60 (mkInit 60 40) [⟨.httpError, 0, 0⟩]).2.flatten).countP Event.isSA
      = 1 := by decide

/-- C3 counterexample: a patch containing the key pumpOnBelow with value
0 leaves the working pumpOnBelow at 35 instead of setting it to the
coerced patch value 0 (the source guards the merge with `or`, so falsy
patch values are discarded). -/
theorem c3_counterexample :
    applyPatch ⟨"auto", false, 35, 45, 60⟩
        ⟨none, none, some (.jnum 0), none, none, false⟩ =
      some ⟨"auto", false, 35, 45, 60⟩ ∧ (35 : Int) ≠ 0 := by decide

/-- C5 counterexample: a patch whose pumpOnBelow fails `int()` coercion
("abc") and whose pumpOffAbove is 50 aborts the whole tick: the patch is
consumed, but no field is applied, and no recompute, acknowledgement or
reading happens that tick — refuting "only that field is skipped while
every other field is still applied and the tick's recompute,
acknowledgement and reading still occur". -/
theorem c5_counterexample :
    tick 60 ⟨40, false, some (false, "auto"), true,
        some ⟨none, none, some (.jstr "abc"), some (.jnum 50), none, false⟩, 60⟩
      ⟨.ok ServerSettings.empty, 0, 0⟩ =
    (⟨40, false, some (false, "auto"), true, none, 60⟩, []) := by decide

/-- C6 counterexample: tick 1 fetches mode "manual" with override on;
tick 2's fetch fails with an HTTP error, and the loop proceeds with the
default settings (mode "auto"), not the previous tick's in-memory
settings — the tick-2 acknowledgement carries mode "auto", not
"manual". -/
theorem c6_counterexample :
    ((run 60 (mkInit 60 40)
        [⟨.ok ⟨some "manual", some true, none, none, none⟩, 0, 0⟩,
         ⟨.httpError, 0, 0⟩]).2.getD 1 []).filter Event.isAck =
      [Event.ack true "auto" "sim"] ∧ ("auto" : String) ≠ "manual" := by decide

/-- Consuming a truthy patch clears the mailbox in every outcome of the
tick body, including an aborting coercion failure. -/
theorem tickBody_clears_pending (rawFn : Int → Int) (itv : Rat)
    (st : SimState) (i : TickInput) (s : ServerSettings) (p : Patch)
    (hp : st.pending = some p) (ht : p.truthy = true) :
    (tickBody rawFn itv st i s).1.pending = none := by
  unfold tickBody
  rw [hp]
  simp only [ht, if_true]
  rcases h : applyPatch (deriveSettings itv s) p with _ | d2
  · simp [h]
  · simp [h, afterPatch]

/-- C9: a pending patch consumed by a tick (the fetch call returned, so
the patch branch runs, and the patch dict is truthy) is cleared before
its fields are applied: the post-tick mailbox is empty — even when the
merge aborts on a coercion failure — so the patch is not visible to the
following tick unless the listener stores a new one. -/
theorem c9_single_consumption (itv : Rat) (st : SimState) (i : TickInput)
    (p : Patch) (hf : i.fetch ≠ .exn) (hp : st.pending = some p)
    (ht : p.truthy = true) : (tick itv st i).1.pending = none := by
  unfold tick tickGen
  cases hfetch : i.fetch with
  | exn => exact absurd hfetch hf
  | httpError => exact tickBody_clears_pending rawOf itv st i _ p hp ht
  | ok s => exact tickBody_clears_pending rawOf itv st i s p hp ht

/-- Witness for C9: a truthy one-field patch is gone from the mailbox
after the tick that consumes it. -/
theorem c9_single_consumption_witness :
    (FetchOutcome.ok ServerSettings.empty ≠ FetchOutcome.exn) ∧
    (tick 60 ⟨40, false, none, true,
        some ⟨some (.jstr "manual"), none, none, none, none, false⟩, 60⟩
      ⟨.ok ServerSettings.empty, 0, 0⟩).1.pending = none := by
  refine ⟨by decide, ?_⟩
  exact c9_single_consumption 60 _ _ _ (by decide) rfl (by decide)

/-- Counting "settings applied" acks over the post-patch tick part: one
is appended exactly when the flag is still clear. -/
theorem countSA_afterPatch (f : Int → Int) (st : SimState) (i : TickInput)
    (d : DerivedSettings) (evs : List Event) :
    ((afterPatch f st i d evs).2.countP Event.isSA) =
      evs.countP Event.isSA + (if st.settingsAcked then 0 else 1) := by
  unfold afterPatch
  cases hA : st.settingsAcked <;>
    simp [List.countP_append, List.countP_cons, Event.isSA] <;>
    split <;> simp [Event.isSA]

/-- The post-patch tick part always ends in a reading. -/
theorem anyReading_afterPatch (f : Int → Int) (st : SimState)
    (i : TickInput) (d : DerivedSettings) (evs : List Event) :
    ((afterPatch f st i d evs).2.any Event.isReading) = true := by
  unfold afterPatch
  simp [List.any_append, Event.isReading]

/-- The post-patch tick part sets the settings-applied flag. -/
theorem settingsAcked_afterPatch (f : Int → Int) (st : SimState)
    (i : TickInput) (d : DerivedSettings) (evs : List Event) :
    (afterPatch f st i d evs).1.settingsAcked = true := rfl

/-- Tick-body-level characterisation of the "settings applied" ack, the
flag update and the reading. -/
theorem tickBody_sa_props (f : Int → Int) (itv : Rat) (st : SimState)
    (i : TickInput) (s : ServerSettings) :
    ((tickBody f itv st i s).2.countP Event.isSA =
      if st.settingsAcked = false ∧ reachesBody itv st s = true then 1
      else 0) ∧
    ((tickBody f itv st i s).1.settingsAcked =
      (st.settingsAcked || reachesBody itv st s)) ∧
    ((tickBody f itv st i s).2.any Event.isReading = reachesBody itv st s) := by
  obtain ⟨m, po, la, ack, pend, si⟩ := st
  cases pend with
  | none =>
      refine ⟨?_, ?_, ?_⟩
      · rw [show tickBody f itv ⟨m, po, la, ack, none, si⟩ i s =
            afterPatch f ⟨m, po, la, ack, none, si⟩ i
              (deriveSettings itv s) [] from rfl]
        rw [countSA_afterPatch]
        cases ack <;> simp [reachesBody]
      · rw [show tickBody f itv ⟨m, po, la, ack, none, si⟩ i s =
            afterPatch f ⟨m, po, la, ack, none, si⟩ i
              (deriveSettings itv s) [] from rfl]
        rw [settingsAcked_afterPatch]
        simp [reachesBody]
      · rw [show tickBody f itv ⟨m, po, la, ack, none, si⟩ i s =
            afterPatch f ⟨m, po, la, ack, none, si⟩ i
              (deriveSettings itv s) [] from rfl]
        rw [anyReading_afterPatch]
        simp [reachesBody]
  | some p =>
      cases ht : p.truthy with
      | false =>
          have hred : tickBody f itv ⟨m, po, la, ack, some p, si⟩ i s =
              afterPatch f ⟨m, po, la, ack, some p, si⟩ i
                (deriveSettings itv s) [] := by
            simp [tickBody, ht]
          rw [hred, countSA_afterPatch, settingsAcked_afterPatch,
            anyReading_afterPatch]
          refine ⟨?_, ?_, ?_⟩ <;> cases ack <;> simp [reachesBody, ht]
      | true =>
          rcases ha : applyPatch (deriveSettings itv s) p with _ | d2
          · have hred : tickBody f itv ⟨m, po, la, ack, some p, si⟩ i s =
                (⟨m, po, la, ack, none,
                  (deriveSettings itv s).sendInterval⟩, []) := by
              simp [tickBody, ht, ha]
            rw [hred]
            cases ack <;> simp [reachesBody, ht, ha]
          · have hred : tickBody f itv ⟨m, po, la, ack, some p, si⟩ i s =
                afterPatch f ⟨m,
                  decidePump d2.mode d2.overrideOn d2.onBelow d2.offAbove m po,
                  some (decidePump d2.mode d2.overrideOn d2.onBelow
                    d2.offAbove m po, d2.mode), ack, none, si⟩ i d2
                  [Event.ack (decidePump d2.mode d2.overrideOn d2.onBelow
                    d2.offAbove m po) d2.mode "cmd"] := by
              simp [tickBody, ht, ha]
            rw [hred, countSA_afterPatch, settingsAcked_afterPatch,
              anyReading_afterPatch]
            refine ⟨?_, ?_, ?_⟩ <;>
              cases ack <;> simp [reachesBody, ht, ha, Event.isSA]

/-- Per-tick characterisation: the tick emits one "settings applied" ack
exactly when the flag is clear and the tick reaches its post-patch part;
the flag afterwards records that the part was reached; and a reading is
emitted exactly when the part is reached. -/
theorem tick_sa_props (f : Int → Int) (itv : Rat) (st : SimState)
    (i : TickInput) :
    ((tickGen f itv st i).2.countP Event.isSA =
      if st.settingsAcked = false ∧ reaches itv st i = true then 1 else 0) ∧
    ((tickGen f itv st i).1.settingsAcked =
      (st.settingsAcked || reaches itv st i)) ∧
    ((tickGen f itv st i).2.any Event.isReading = reaches itv st i) := by
  cases hf : i.fetch with
  | exn => simp [tickGen, reaches, hf]
  | httpError =>
      have h := tickBody_sa_props f itv st i ServerSettings.empty
      simpa [tickGen, reaches, hf, FetchOutcome.body] using h
  | ok s =>
      have h := tickBody_sa_props f itv st i s
      simpa [tickGen, reaches, hf, FetchOutcome.body] using h

/-- Run-level law: over any run, at most one "settings applied" ack is
emitted; starting with the flag clear, exactly one is emitted iff some
tick emits a reading (i.e. some tick reaches its post-patch part). -/
theorem run_countSA (inps : List TickInput) (itv : Rat) (st : SimState) :
    (((run itv st inps).2.flatten).countP Event.isSA) =
      if st.settingsAcked then 0
      else if ((run itv st inps).2.flatten).any Event.isReading then 1
      else 0 := by
  induction inps generalizing st with
  | nil => cases st.settingsAcked <;> simp [run]
  | cons i is ih =>
      have h := tick_sa_props rawOf itv st i
      simp only [run, List.flatten_cons, List.countP_append, List.any_append]
      rw [ih]
      rcases h with ⟨h1, h2, h3⟩
      simp only [tick]
      rw [h1, h2]
      simp only [h3]
      cases hA : st.settingsAcked <;> cases hr : reaches itv st i <;> simp

/-- With the settings-applied flag set and the resulting (pumpOn, mode)
pair equal to the last acknowledged pair, the post-patch part emits no
ack, only the reading. -/
theorem afterPatch_suppressed (f : Int → Int) (st : SimState)
    (i : TickInput) (d : DerivedSettings) (hA : st.settingsAcked = true)
    (hla : st.lastAck = some ((afterPatch f st i d []).1.pumpOn, d.mode)) :
    (afterPatch f st i d []).2.countP Event.isAck = 0 ∧
      (afterPatch f st i d []).2.countP Event.isReading = 1 := by
  have hp2 : (afterPatch f st i d []).1.pumpOn =
      decidePump d.mode d.overrideOn d.onBelow d.offAbove
        (envStep st.moisture i.drift i.sine) st.pumpOn := rfl
  rw [hp2] at hla
  unfold afterPatch
  simp [hA, hla, Event.isAck, Event.isReading]

/-- Suppression over the tick body: no patch to consume, flag already
set, resulting pair unchanged — no ack, one reading. -/
theorem tickBody_suppressed (itv : Rat) (st : SimState) (i : TickInput)
    (s : ServerSettings) (hA : st.settingsAcked = true)
    (hp : ∀ p, st.pending = some p → p.truthy = false)
    (hla : st.lastAck = some ((tickBody rawOf itv st i s).1.pumpOn,
      (deriveSettings itv s).mode)) :
    (tickBody rawOf itv st i s).2.countP Event.isAck = 0 ∧
      (tickBody rawOf itv st i s).2.countP Event.isReading = 1 := by
  cases hpend : st.pending with
  | none =>
      have hred : tickBody rawOf itv st i s =
          afterPatch rawOf st i (deriveSettings itv s) [] := by
        simp [tickBody, hpend]
      rw [hred] at hla ⊢
      exact afterPatch_suppressed rawOf st i _ hA hla
  | some p =>
      have ht := hp p hpend
      have hred : tickBody rawOf itv st i s =
          afterPatch rawOf st i (deriveSettings itv s) [] := by
        simp [tickBody, hpend, ht]
      rw [hred] at hla ⊢
      exact afterPatch_suppressed rawOf st i _ hA hla

/-- C2 (amended): (1) on a tick whose fetch call returns, with no
consumable patch pending, the settings-applied flag already set and the
resulting (pumpOn, mode) pair equal to the last acknowledged pair, no
acknowledgement is emitted and exactly one reading is; (2) per tick, one
"settings applied" ack is emitted iff the flag is clear and the tick
reaches its post-patch part — the fetch call returning (successfully or
with an HTTP error, not only on a successful fetch) and any consumed
patch merging without an int() failure; (3) over a run started with the
flag clear, at most one "settings applied" ack is emitted, and exactly
one iff some tick emits a reading. -/
theorem c2_ack_discipline (itv : Rat) :
    (∀ st i, i.fetch ≠ .exn → st.settingsAcked = true →
      (∀ p, st.pending = some p → p.truthy = false) →
      st.lastAck = some ((tick itv st i).1.pumpOn,
        (deriveSettings itv i.fetch.body).mode) →
      (tick itv st i).2.countP Event.isAck = 0 ∧
        (tick itv st i).2.countP Event.isReading = 1) ∧
    (∀ st i, (tick itv st i).2.countP Event.isSA =
      if st.settingsAcked = false ∧ reaches itv st i = true then 1 else 0) ∧
    (∀ st inps, st.settingsAcked = false →
      (((run itv st inps).2.flatten).countP Event.isSA) =
        if ((run itv st inps).2.flatten).any Event.isReading then 1
        else 0) := by
  refine ⟨?_, ?_, ?_⟩
  · intro st i hf hA hp hla
    cases hfetch : i.fetch with
    | exn => exact absurd hfetch hf
    | httpError =>
        have hla2 : st.lastAck =
            some ((tickBody rawOf itv st i ServerSettings.empty).1.pumpOn,
              (deriveSettings itv ServerSettings.empty).mode) := by
          simpa [tick, tickGen, hfetch, FetchOutcome.body] using hla
        have h := tickBody_suppressed itv st i ServerSettings.empty hA hp hla2
        simpa [tick, tickGen, hfetch] using h
    | ok s =>
        have hla2 : st.lastAck =
            some ((tickBody rawOf itv st i s).1.pumpOn,
              (deriveSettings itv s).mode) := by
          simpa [tick, tickGen, hfetch, FetchOutcome.body] using hla
        have h := tickBody_suppressed itv st i s hA hp hla2
        simpa [tick, tickGen, hfetch] using h
  · intro st i
    simpa [tick] using (tick_sa_props rawOf itv st i).1
  · intro st inps hA
    rw [run_countSA]
    simp [hA]

/-- Witness for C2: a patch-free tick with the flag set and an unchanged
(pumpOn, mode) pair emits no ack and one reading, and a fresh one-tick
run emits exactly one "settings applied" ack alongside its reading. -/
theorem c2_ack_discipline_witness :
    ((tick 60 ⟨40, true, some (true, "auto"), true, none, 60⟩
        ⟨.ok ServerSettings.empty, 0, 0⟩).2.countP Event.isAck = 0 ∧
      (tick 60 ⟨40, true, some (true, "auto"), true, none, 60⟩
        ⟨.ok ServerSettings.empty, 0, 0⟩).2.countP Event.isReading = 1) ∧
    (((run 60 (mkInit 60 40) [⟨.ok ServerSettings.empty, 0, 0⟩]).2.flatten).countP
        Event.isSA =
      if ((run 60 (mkInit 60 40)
          [⟨.ok ServerSettings.empty, 0, 0⟩]).2.flatten).any Event.isReading
      then 1 else 0) := by
  constructor
  · exact (c2_ack_discipline 60).1 ⟨40, true, some (true, "auto"), true, none, 60⟩
      ⟨.ok ServerSettings.empty, 0, 0⟩ (by decide) rfl
      (fun p hp => by simp at hp) (by decide)
  · exact (c2_ack_discipline 60).2.2 (mkInit 60 40)
      [⟨.ok ServerSettings.empty, 0, 0⟩] rfl

/-- C3 (amended): a successful merge leaves every field absent from the
patch unchanged; a present field takes the patch's coerced value only
when the patch value is truthy (overridePumpOn always takes the
truthiness of its value); a present falsy value leaves the field
unchanged — except that pumpMode is still lowercased — and a
sendIntervalSec whose float coercion fails is kept unchanged. -/
theorem c3_merge_fields (d : DerivedSettings) (p : Patch)
    (d2 : DerivedSettings) (h : applyPatch d p = some d2) :
    (p.pumpMode = none → d2.mode = d.mode) ∧
    (∀ v, p.pumpMode = some v → pyBool v = true →
      d2.mode = lowerStr (pyStr v)) ∧
    (∀ v, p.pumpMode = some v → pyBool v = false →
      d2.mode = lowerStr d.mode) ∧
    (p.overridePumpOn = none → d2.overrideOn = d.overrideOn) ∧
    (∀ v, p.overridePumpOn = some v → d2.overrideOn = pyBool v) ∧
    (p.pumpOnBelow = none → d2.onBelow = d.onBelow) ∧
    (∀ v, p.pumpOnBelow = some v → pyBool v = true →
      pyInt v = some d2.onBelow) ∧
    (∀ v, p.pumpOnBelow = some v → pyBool v = false →
      d2.onBelow = d.onBelow) ∧
    (p.pumpOffAbove = none → d2.offAbove = d.offAbove) ∧
    (∀ v, p.pumpOffAbove = some v → pyBool v = true →
      pyInt v = some d2.offAbove) ∧
    (∀ v, p.pumpOffAbove = some v → pyBool v = false →
      d2.offAbove = d.offAbove) ∧
    (p.sendIntervalSec = none → d2.sendInterval = d.sendInterval) ∧
    (∀ v, p.sendIntervalSec = some v → pyBool v = true →
      pyFloat v = some d2.sendInterval ∨
        (pyFloat v = none ∧ d2.sendInterval = d.sendInterval)) ∧
    (∀ v, p.sendIntervalSec = some v → pyBool v = false →
      d2.sendInterval = d.sendInterval) := by
  obtain ⟨m2, ov2, ob2, oa2, si2⟩ := d2
  rcases hb : patchOnBelow d p with _ | ob <;>
    rcases ha : patchOffAbove d p with _ | oa <;>
      simp [applyPatch, hb, ha] at h
  obtain ⟨hmode, hov, hob2, hoa2, hsi⟩ := h
  subst hob2 hoa2
  refine ⟨?_, ?_, ?_, ?_, ?_, ?_, ?_, ?_, ?_, ?_, ?_, ?_, ?_, ?_⟩
  · intro hv; rw [← hmode]; simp [patchMode, hv]
  · intro v hv htr; rw [← hmode]; simp [patchMode, hv, htr]
  · intro v hv htr; rw [← hmode]; simp [patchMode, hv, htr, pyStr]
  · intro hv; rw [← hov]; simp [patchOverride, hv]
  · intro v hv; rw [← hov]; simp [patchOverride, hv]
  · intro hv; simp [patchOnBelow, hv] at hb
    show ob = d.onBelow; omega
  · intro v hv htr; simpa [patchOnBelow, hv, htr] using hb
  · intro v hv htr; simp [patchOnBelow, hv, htr] at hb
    show ob = d.onBelow; omega
  · intro hv; simp [patchOffAbove, hv] at ha
    show oa = d.offAbove; omega
  · intro v hv htr; simpa [patchOffAbove, hv, htr] using ha
  · intro v hv htr; simp [patchOffAbove, hv, htr] at ha
    show oa = d.offAbove; omega
  · intro hv; rw [← hsi]; simp [patchInterval, hv]
  · intro v hv htr
    rw [← hsi]
    simp only [patchInterval, hv, htr, if_true]
    rcases hfl : pyFloat v with _ | q
    · exact Or.inr ⟨rfl, by simp [hfl]⟩
    · exact Or.inl (by simp [hfl])
  · intro v hv htr; rw [← hsi]; simp [patchInterval, hv, htr]

/-- Witness for C3: a patch setting pumpOnBelow to 20 merges into
working settings whose pumpOnBelow becomes 20. -/
theorem c3_merge_fields_witness :
    applyPatch ⟨"auto", false, 35, 45, 60⟩
        ⟨none, none, some (.jnum 20), none, none, false⟩ =
      some ⟨"auto", false, 20, 45, 60⟩ ∧
    pyInt (.jnum 20) = some (20 : Int) := by
  refine ⟨by decide, ?_⟩
  exact (c3_merge_fields ⟨"auto", false, 35, 45, 60⟩
      ⟨none, none, some (.jnum 20), none, none, false⟩
      ⟨"auto", false, 20, 45, 60⟩ (by decide)).2.2.2.2.2.2.1
    (.jnum 20) rfl (by decide)

/-- Each per-field merge function ignores the sendIntervalSec entry of
the patch. -/
theorem patch_fields_ignore_interval (d : DerivedSettings) (p : Patch) :
    patchMode d ⟨p.pumpMode, p.overridePumpOn, p.pumpOnBelow,
        p.pumpOffAbove, none, p.extra⟩ = patchMode d p ∧
    patchOverride d ⟨p.pumpMode, p.overridePumpOn, p.pumpOnBelow,
        p.pumpOffAbove, none, p.extra⟩ = patchOverride d p ∧
    patchOnBelow d ⟨p.pumpMode, p.overridePumpOn, p.pumpOnBelow,
        p.pumpOffAbove, none, p.extra⟩ = patchOnBelow d p ∧
    patchOffAbove d ⟨p.pumpMode, p.overridePumpOn, p.pumpOnBelow,
        p.pumpOffAbove, none, p.extra⟩ = patchOffAbove d p := by
  refine ⟨rfl, rfl, rfl, rfl⟩

/-- C5 (amended): only the sendIntervalSec coercion failure is skipped —
the merge then behaves as if the field were absent and the tick
proceeds; an `int()` coercion failure on pumpOnBelow or pumpOffAbove
instead aborts the tick: the patch is consumed, but no settings change
survives, and no recompute, acknowledgement or reading occurs that tick;
when the merge succeeds the tick does emit its reading. -/
theorem c5_coercion_failures (itv : Rat) :
    (∀ d p v, p.sendIntervalSec = some v → pyBool v = true →
      pyFloat v = none →
      applyPatch d p = applyPatch d ⟨p.pumpMode, p.overridePumpOn,
        p.pumpOnBelow, p.pumpOffAbove, none, p.extra⟩) ∧
    (∀ st i p, i.fetch ≠ .exn → st.pending = some p → p.truthy = true →
      applyPatch (deriveSettings itv i.fetch.body) p = none →
      tick itv st i = (⟨st.moisture, st.pumpOn, st.lastAck,
        st.settingsAcked, none,
        (deriveSettings itv i.fetch.body).sendInterval⟩, [])) ∧
    (∀ st i p d2, i.fetch ≠ .exn → st.pending = some p →
      p.truthy = true →
      applyPatch (deriveSettings itv i.fetch.body) p = some d2 →
      (tick itv st i).2.any Event.isReading = true) := by
  refine ⟨?_, ?_, ?_⟩
  · intro d p v hv htr hfl
    have hint : patchInterval d p = d.sendInterval := by
      simp [patchInterval, hv, htr, hfl]
    have hint2 : patchInterval d ⟨p.pumpMode, p.overridePumpOn,
        p.pumpOnBelow, p.pumpOffAbove, none, p.extra⟩ = d.sendInterval := by
      simp [patchInterval]
    obtain ⟨h1, h2, h3, h4⟩ := patch_fields_ignore_interval d p
    unfold applyPatch
    rw [h1, h2, h3, h4, hint, hint2]
  · intro st i p hf hpend ht happ
    cases hfetch : i.fetch with
    | exn => exact absurd hfetch hf
    | httpError =>
        rw [hfetch] at happ
        simp only [FetchOutcome.body] at happ ⊢
        simp [tick, tickGen, tickBody, hfetch, hpend, ht, happ]
    | ok s =>
        rw [hfetch] at happ
        simp only [FetchOutcome.body] at happ ⊢
        simp [tick, tickGen, tickBody, hfetch, hpend, ht, happ]
  · intro st i p d2 hf hpend ht happ
    have h := (tick_sa_props rawOf itv st i).2.2
    simp only [tick]
    rw [h]
    unfold reaches
    cases hfetch : i.fetch with
    | exn => exact absurd hfetch hf
    | httpError =>
        rw [hfetch] at happ
        simp [reachesBody, hpend, ht, happ]
    | ok s =>
        rw [hfetch] at happ
        simp [reachesBody, hpend, ht, happ]

/-- Witness for C5: a patch whose sendIntervalSec is the uncoercible
string "abc" merges exactly like the same patch without that field. -/
theorem c5_coercion_failures_witness :
    pyBool (.jstr "abc") = true ∧ pyFloat (.jstr "abc") = none ∧
    applyPatch ⟨"auto", false, 35, 45, 60⟩
        ⟨none, none, some (.jnum 20), none, some (.jstr "abc"), false⟩ =
      applyPatch ⟨"auto", false, 35, 45, 60⟩
        ⟨none, none, some (.jnum 20), none, none, false⟩ := by
  refine ⟨by decide, by decide, ?_⟩
  exact (c5_coercion_failures 60).1 ⟨"auto", false, 35, 45, 60⟩
    ⟨none, none, some (.jnum 20), none, some (.jstr "abc"), false⟩
    (.jstr "abc") rfl (by decide) (by decide)

/-- C6 (amended): a tick whose settings fetch returns an HTTP error
behaves exactly like a tick that fetched the empty body, whose derived
settings are the defaults (auto, override off, 35, 45, the configured
interval) regardless of earlier ticks; a tick whose fetch raises skips
the whole tick body, leaving the state unchanged and emitting nothing. -/
theorem c6_fetch_failure (itv : Rat) :
    (∀ f st dr sn, tickGen f itv st ⟨.httpError, dr, sn⟩ =
        tickGen f itv st ⟨.ok ServerSettings.empty, dr, sn⟩) ∧
    (deriveSettings itv ServerSettings.empty = ⟨"auto", false, 35, 45, itv⟩) ∧
    (∀ st i, i.fetch = .exn → tick itv st i = (st, [])) := by
  refine ⟨fun f st dr sn => rfl, rfl, ?_⟩
  intro st i h
  simp [tick, tickGen, h]

/-- Witness for C6: a tick with a raised fetch leaves the initial state
untouched and emits nothing. -/
theorem c6_fetch_failure_witness :
    (TickInput.mk .exn 1 2).fetch = .exn ∧
    tick 60 (mkInit 60 40) ⟨.exn, 1, 2⟩ = (mkInit 60 40, []) := by
  refine ⟨rfl, ?_⟩
  exact (c6_fetch_failure 60).2.2 (mkInit 60 40) ⟨.exn, 1, 2⟩ rfl

/-- The raw mapping evaluates to an exact linear expression. -/
theorem rawOf_eval (m : Int) : rawOf m = 1400 + (100 - m) * 18 := by
  unfold rawOf
  omega

/-- The tick state does not depend on the raw-sensor mapping. -/
theorem afterPatch_state (f g : Int → Int) (st : SimState) (i : TickInput)
    (d : DerivedSettings) (evs evs2 : List Event) :
    (afterPatch f st i d evs).1 = (afterPatch g st i d evs2).1 := rfl

/-- The tick-body state does not depend on the raw-sensor mapping. -/
theorem tickBody_state (f g : Int → Int) (itv : Rat) (st : SimState)
    (i : TickInput) (s : ServerSettings) :
    (tickBody f itv st i s).1 = (tickBody g itv st i s).1 := by
  obtain ⟨m, po, la, ack, pend, si⟩ := st
  cases pend with
  | none => exact afterPatch_state f g _ i _ _ _
  | some p =>
      cases ht : p.truthy with
      | false =>
          simp only [tickBody, ht, Bool.false_eq_true, if_false]
          exact afterPatch_state f g _ i _ _ _
      | true =>
          rcases ha : applyPatch (deriveSettings itv s) p with _ | d2
          · simp [tickBody, ht, ha]
          · simp only [tickBody, ht, ha, if_true]
            exact afterPatch_state f g _ i _ _ _

/-- Any reading among the post-patch events is the final one: its raw is
the raw mapping of its moisture, which is the new state's moisture, and
its pump flag is the new state's pump flag. -/
theorem reading_afterPatch (f : Int → Int) (st : SimState) (i : TickInput)
    (d : DerivedSettings) (evs : List Event)
    (hevs : ∀ e ∈ evs, Event.isAck e = true) (m : Int) (p : Bool) (r : Int)
    (hmem : Event.reading m p r ∈ (afterPatch f st i d evs).2) :
    r = f m ∧ m = (afterPatch f st i d evs).1.moisture ∧
      p = (afterPatch f st i d evs).1.pumpOn := by
  unfold afterPatch at hmem ⊢
  simp only [List.mem_append, List.mem_singleton] at hmem
  rcases hmem with ((hin | hsa) | hch) | heq
  · exact absurd (hevs _ hin) (by simp [Event.isAck])
  · rcases hA : st.settingsAcked <;> simp [hA] at hsa
  · by_cases hc : st.lastAck = some (decidePump d.mode d.overrideOn
        d.onBelow d.offAbove (envStep st.moisture i.drift i.sine) st.pumpOn,
        d.mode) <;> simp [hc] at hch
  · obtain ⟨hm, hp, hr⟩ := Event.reading.injEq .. |>.mp heq.symm
    subst hm hp hr
    exact ⟨rfl, rfl, rfl⟩

/-- Reading characterisation lifted to the tick body. -/
theorem tickBody_reading (itv : Rat) (st : SimState) (i : TickInput)
    (s : ServerSettings) (m : Int) (p : Bool) (r : Int)
    (hmem : Event.reading m p r ∈ (tickBody rawOf itv st i s).2) :
    r = rawOf m ∧ m = (tickBody rawOf itv st i s).1.moisture ∧
      p = (tickBody rawOf itv st i s).1.pumpOn := by
  obtain ⟨mo, po, la, ack, pend, si⟩ := st
  cases pend with
  | none =>
      exact reading_afterPatch rawOf _ i _ [] (by simp) m p r hmem
  | some q =>
      cases ht : q.truthy with
      | false =>
          have hred : tickBody rawOf itv ⟨mo, po, la, ack, some q, si⟩ i s =
              afterPatch rawOf ⟨mo, po, la, ack, some q, si⟩ i
                (deriveSettings itv s) [] := by
            simp [tickBody, ht]
          rw [hred] at hmem ⊢
          exact reading_afterPatch rawOf _ i _ [] (by simp) m p r hmem
      | true =>
          rcases ha : applyPatch (deriveSettings itv s) q with _ | d2
          · have hred : tickBody rawOf itv ⟨mo, po, la, ack, some q, si⟩ i s =
                (⟨mo, po, la, ack, none,
                  (deriveSettings itv s).sendInterval⟩, []) := by
              simp [tickBody, ht, ha]
            rw [hred] at hmem
            simp at hmem
          · have hred : tickBody rawOf itv ⟨mo, po, la, ack, some q, si⟩ i s =
                afterPatch rawOf ⟨mo,
                  decidePump d2.mode d2.overrideOn d2.onBelow d2.offAbove mo po,
                  some (decidePump d2.mode d2.overrideOn d2.onBelow
                    d2.offAbove mo po, d2.mode), ack, none, si⟩ i d2
                  [Event.ack (decidePump d2.mode d2.overrideOn d2.onBelow
                    d2.offAbove mo po) d2.mode "cmd"] := by
              simp [tickBody, ht, ha]
            rw [hred] at hmem ⊢
            exact reading_afterPatch rawOf _ i _ _
              (by simp [Event.isAck]) m p r hmem

/-- C10: the derived raw sensor value is
`1400 + floor((100 - m) * (3200 - 1400) / 100)`, an exact linear map
equal to `1400 + (100 - m) * 18` that stays within [1400, 3200] and is
antitone in moisture on [0,100]; the tick state (hence the control
decision) is independent of the raw mapping, and every reading a tick
emits carries the raw mapping of the very moisture and pump state it
reports. -/
theorem c10_raw_mapping (itv : Rat) :
    (∀ m : Int, 0 ≤ m → m ≤ 100 →
      rawOf m = 1400 + (100 - m) * (3200 - 1400) / 100 ∧
      rawOf m = 1400 + (100 - m) * 18 ∧
      1400 ≤ rawOf m ∧ rawOf m ≤ 3200) ∧
    (∀ m n : Int, 0 ≤ m → m ≤ n → n ≤ 100 → rawOf n ≤ rawOf m) ∧
    (∀ f st i, (tickGen f itv st i).1 = (tick itv st i).1) ∧
    (∀ st i m p r, Event.reading m p r ∈ (tick itv st i).2 →
      r = rawOf m ∧ m = (tick itv st i).1.moisture ∧
      p = (tick itv st i).1.pumpOn) := by
  refine ⟨?_, ?_, ?_, ?_⟩
  · intro m h0 h1
    refine ⟨rfl, rawOf_eval m, ?_, ?_⟩ <;> rw [rawOf_eval] <;> omega
  · intro m n h0 h1 h2
    rw [rawOf_eval, rawOf_eval]
    omega
  · intro f st i
    unfold tick tickGen
    cases hfetch : i.fetch with
    | exn => rfl
    | httpError => exact tickBody_state f rawOf itv st i ServerSettings.empty
    | ok s => exact tickBody_state f rawOf itv st i s
  · intro st i m p r hmem
    revert hmem
    unfold tick tickGen
    cases hfetch : i.fetch with
    | exn => intro hmem; simp at hmem
    | httpError =>
        intro hmem
        exact tickBody_reading itv st i ServerSettings.empty m p r hmem
    | ok s =>
        intro hmem
        exact tickBody_reading itv st i s m p r hmem

/-- Witness for C10: at moisture 40 the raw value is the exact linear
map, 2480. -/
theorem c10_raw_mapping_witness :
    (0 : Int) ≤ 40 ∧ (40 : Int) ≤ 100 ∧
    rawOf 40 = 1400 + (100 - 40) * 18 ∧ rawOf 40 = 2480 := by
  refine ⟨by decide, by decide, ?_, by decide⟩
  exact ((c10_raw_mapping 60).1 40 (by decide) (by decide)).2.1

end MushIoT
